import Mathlib

/-!
Shallow embedding of the task-management HTTP service
(`app/routes/task_router.py`, `app/models/task_model.py`,
`app/models/response_model.py`) and proofs of the frozen claims about it.

Conventions of the embedding:
* SQL rows become Lean structures; the SQLite database becomes an explicit
  `DB` record of row lists in insertion order (SQLite returns rows of an
  unordered `SELECT` in rowid/insertion order).
* `datetime` values are an abstract logical clock (`Nat`); `utc_now()` is
  a `now` parameter threaded into the operations that call it.
* Python `Optional[int]` request fields become `Option Int`; Python
  truthiness of such a field (`if task_data.project_id:`) is `truthyId`,
  which is false for both `None` and `0`.
* `TaskUpdate` uses `model_dump(exclude_unset=True)`, so each of its
  fields is wrapped in an outer `Option` meaning "explicitly present in
  the request payload".
* Endpoints that can raise `HTTPException` return `Except ApiError _`;
  the mutating endpoints also return the post-state `DB` (the state
  committed before an exception propagates is kept, matching the two
  separate commits in `create_task`).
* The `ResponseModel` wrapper is only applied where the source applies
  it; `ApiBody` distinguishes an enveloped body from a bare projection.
* The association table `tasktaglink` has the composite primary key
  `(task_id, tag_id)`; flushing an INSERT for a pair that is already
  present (including a duplicate within one flush) raises
  `IntegrityError`, modelled by `insertLinks` returning `none`.
* Float fields (`estimated_hours`, `actual_hours`) and the float
  division in the statistics endpoint are modelled over `ℚ`; Python's
  `round(x, 2)` is modelled as exact round-half-to-even on `ℚ`.
-/

namespace TaskApi

/-- `TaskStatus` enum from `task_model.py`. -/
inductive TaskStatus where
  | pending
  | in_progress
  | completed
  | cancelled
deriving DecidableEq

/-- `TaskPriority` enum from `task_model.py`. -/
inductive TaskPriority where
  | low
  | medium
  | high
  | urgent
deriving DecidableEq

/-- Row of the `user` table. -/
structure User where
  id : Int
  username : String
  email : String
  full_name : Option String := none
  is_active : Bool := true
  created_at : Nat
  updated_at : Nat
deriving DecidableEq

/-- Row of the `project` table. -/
structure Project where
  id : Int
  name : String
  description : Option String := none
  is_active : Bool := true
  owner_id : Option Int := none
  created_at : Nat
  updated_at : Nat
deriving DecidableEq

/-- Row of the `tag` table (no `updated_at` column in the source). -/
structure Tag where
  id : Int
  name : String
  color : Option String := some "#3498db"
  created_at : Nat
deriving DecidableEq

/-- Row of the `task` table. -/
structure Task where
  id : Int
  title : String
  description : Option String := none
  status : TaskStatus := .pending
  priority : TaskPriority := .medium
  is_completed : Bool := false
  due_date : Option Nat := none
  estimated_hours : Option ℚ := none
  actual_hours : Option ℚ := none
  created_at : Nat
  updated_at : Nat
  project_id : Option Int := none
  assignee_id : Option Int := none
  parent_task_id : Option Int := none
deriving DecidableEq

/-- Row of the `comment` table. -/
structure Comment where
  id : Int
  content : String
  created_at : Nat
  updated_at : Nat
  task_id : Option Int := none
  author_id : Option Int := none
deriving DecidableEq

/-- Row of the `tasktaglink` association table; both columns form the
composite primary key, so the table can never hold a duplicate pair. -/
structure TaskTagLink where
  task_id : Int
  tag_id : Int
deriving DecidableEq

/-- The database state: row lists in insertion order plus the
autoincrement counter for the `task` table. -/
structure DB where
  users : List User := []
  projects : List Project := []
  tags : List Tag := []
  tasks : List Task := []
  comments : List Comment := []
  links : List TaskTagLink := []
  next_task_id : Int := 1
deriving DecidableEq

/-- `session.get(User, i)`: primary-key lookup. -/
def DB.getUser (db : DB) (i : Int) : Option User :=
  db.users.find? (fun u => u.id == i)

/-- `session.get(Project, i)`: primary-key lookup. -/
def DB.getProject (db : DB) (i : Int) : Option Project :=
  db.projects.find? (fun p => p.id == i)

/-- `session.get(Tag, i)`: primary-key lookup. -/
def DB.getTag (db : DB) (i : Int) : Option Tag :=
  db.tags.find? (fun t => t.id == i)

/-- `session.get(Task, i)`: primary-key lookup. -/
def DB.getTask (db : DB) (i : Int) : Option Task :=
  db.tasks.find? (fun t => t.id == i)

/-- The tag ids currently linked to task `tid`, in link-table order. -/
def DB.linkTagIds (db : DB) (tid : Int) : List Int :=
  (db.links.filter (fun l => l.task_id == tid)).map (fun l => l.tag_id)

/-- Python truthiness of an `Optional[int]`: `None` and `0` are falsy. -/
def truthyId : Option Int → Bool
  | none => false
  | some v => v != 0

/-- Python truthiness of an `Optional[List[int]]`: `None` and `[]` are
falsy. -/
def truthyList : Option (List Int) → Bool
  | none => false
  | some l => !l.isEmpty

/-- `TaskCreate` request model: `TaskBase` fields plus optional foreign
keys and `tag_ids` (whose Python default is `[]`). -/
structure TaskCreate where
  title : String
  description : Option String := none
  status : TaskStatus := .pending
  priority : TaskPriority := .medium
  is_completed : Bool := false
  due_date : Option Nat := none
  estimated_hours : Option ℚ := none
  actual_hours : Option ℚ := none
  project_id : Option Int := none
  assignee_id : Option Int := none
  parent_task_id : Option Int := none
  tag_ids : Option (List Int) := some []
deriving DecidableEq

/-- `TaskUpdate` request model. The router reads it with
`model_dump(exclude_unset=True)`, so every field records whether it was
explicitly present in the payload (outer `Option`) and, for the fields
that are nullable on the `task` row, the possibly-null supplied value
(inner `Option`). `tag_ids` is compared against `None` directly
(`exclude_unset` is not applied to it), so one `Option` layer suffices. -/
structure TaskUpdate where
  title : Option String := none
  description : Option (Option String) := none
  status : Option TaskStatus := none
  priority : Option TaskPriority := none
  is_completed : Option Bool := none
  due_date : Option (Option Nat) := none
  estimated_hours : Option (Option ℚ) := none
  actual_hours : Option (Option ℚ) := none
  assignee_id : Option (Option Int) := none
  tag_ids : Option (List Int) := none
deriving DecidableEq

/-- `TaskRead` flat projection: own columns plus raw foreign-key ids. -/
structure TaskRead where
  id : Int
  title : String
  description : Option String
  status : TaskStatus
  priority : TaskPriority
  is_completed : Bool
  due_date : Option Nat
  estimated_hours : Option ℚ
  actual_hours : Option ℚ
  created_at : Nat
  updated_at : Nat
  project_id : Option Int
  assignee_id : Option Int
  parent_task_id : Option Int
deriving DecidableEq

/-- `TaskRead.model_validate(task)`. -/
def TaskRead.ofTask (t : Task) : TaskRead :=
  { id := t.id, title := t.title, description := t.description,
    status := t.status, priority := t.priority,
    is_completed := t.is_completed, due_date := t.due_date,
    estimated_hours := t.estimated_hours, actual_hours := t.actual_hours,
    created_at := t.created_at, updated_at := t.updated_at,
    project_id := t.project_id, assignee_id := t.assignee_id,
    parent_task_id := t.parent_task_id }
/-- `TaskReadWithRelations` expanded projection: the flat fields plus one
level of nested related entities. -/
structure TaskReadWithRelations where
  flat : TaskRead
  project : Option Project
  assignee : Option User
  parent_task : Option TaskRead
  subtasks : List TaskRead
  tags : List Tag
  comments : List Comment
deriving DecidableEq

/-- The tags relationship of a task, loaded through the link table in
link-table order. -/
def DB.taskTags (db : DB) (tid : Int) : List Tag :=
  (db.links.filter (fun l => l.task_id == tid)).filterMap
    (fun l => db.getTag l.tag_id)

/-- `TaskReadWithRelations.model_validate(task)`: resolve each
relationship one level deep. -/
def TaskReadWithRelations.ofTask (db : DB) (t : Task) :
    TaskReadWithRelations :=
  { flat := TaskRead.ofTask t,
    project := t.project_id.bind db.getProject,
    assignee := t.assignee_id.bind db.getUser,
    parent_task := (t.parent_task_id.bind db.getTask).map TaskRead.ofTask,
    subtasks := (db.tasks.filter
      (fun x => x.parent_task_id == some t.id)).map TaskRead.ofTask,
    tags := db.taskTags t.id,
    comments := db.comments.filter (fun c => c.task_id == some t.id) }

/-- `ResponseModel` from `response_model.py`, with its field defaults. -/
structure ResponseModel (α : Type) where
  success : Bool := true
  message : String := "OK"
  data : Option α := none
deriving DecidableEq

/-- Shape of a successful HTTP response body: either the standard
`ResponseModel` envelope or a bare model returned directly. -/
inductive ApiBody (α : Type) where
  | enveloped (r : ResponseModel α)
  | plain (data : α)
deriving DecidableEq

/-- Errors an endpoint can raise: `HTTPException(status_code, detail)`
or a storage-level `IntegrityError` escaping from `session.commit()`. -/
inductive ApiError where
  | httpError (status_code : Nat) (detail : String)
  | integrityError
deriving DecidableEq

/-- Flush a batch of INSERTs into the `tasktaglink` table, one row per
collection-append event, in order. The composite primary key
`(task_id, tag_id)` rejects a pair that is already stored — including a
pair already inserted earlier in the same batch — in which case the
whole flush fails (`IntegrityError`, modelled as `none`) and the
transaction rolls back. -/
def insertLinks (links : List TaskTagLink) :
    List TaskTagLink → Option (List TaskTagLink)
  | [] => some links
  | l :: rest =>
      if links.contains l then none else insertLinks (links ++ [l]) rest

/-- `task.tags = tags` (SQLAlchemy bulk collection replacement) followed
by a flush, for the links of task `tid`.  Members of the new list whose
tag is already linked are kept without an event; links to tags absent
from the new list are deleted; each remaining occurrence in the new list
fires an append event, i.e. one INSERT — so a tag id occurring twice in
the new list without being already linked makes the flush fail on the
composite primary key. -/
def bulkReplaceLinks (links : List TaskTagLink) (tid : Int)
    (tags : List Tag) : Option (List TaskTagLink) :=
  let newIds := tags.map (fun tg => tg.id)
  let oldIds := (links.filter (fun l => l.task_id == tid)).map
    (fun l => l.tag_id)
  let kept := links.filter
    (fun l => !(l.task_id == tid) || newIds.contains l.tag_id)
  let additions := tags.filter (fun tg => !oldIds.contains tg.id)
  insertLinks kept (additions.map (fun tg => ⟨tid, tg.id⟩))

/-- `GET /tasks/`: list tasks with optional filtering and pagination.
Each filter is applied under Python truthiness of the parameter, so a
supplied id of `0` (like an absent one) imposes no constraint. -/
def get_tasks (db : DB) (skip : Nat) (limit : Nat)
    (status : Option TaskStatus) (priority : Option TaskPriority)
    (project_id : Option Int) (assignee_id : Option Int) :
    ApiBody (List TaskRead) :=
  let q : List Task := db.tasks
  let q : List Task := match status with
    | some s => q.filter (fun t => t.status == s)
    | none => q
  let q : List Task := match priority with
    | some p => q.filter (fun t => t.priority == p)
    | none => q
  let q := if truthyId project_id then
      q.filter (fun t => t.project_id == project_id) else q
  let q := if truthyId assignee_id then
      q.filter (fun t => t.assignee_id == assignee_id) else q
  let q := (q.drop skip).take limit
  .enveloped { data := some (q.map TaskRead.ofTask) }

/-- `GET /tasks/{task_id}`: single task, expanded projection, returned
bare (the route's `response_model` is `TaskReadWithRelations`, not the
`ResponseModel` envelope). -/
def get_task (db : DB) (task_id : Int) :
    Except ApiError (ApiBody TaskReadWithRelations) :=
  match db.getTask task_id with
  | none => .error (.httpError 404 "Task not found")
  | some task => .ok (.plain (TaskReadWithRelations.ofTask db task))

/-- `POST /tasks/`: validate the truthy foreign keys, insert the task
row and commit, then resolve `tag_ids` (dropping unknown ids), append
the resolved tags to the task's collection and commit again. The first
commit is durable even when the second one fails. The tag lookups
happen after the first commit, but that commit only adds a task row, so
they read the same tag table as the pre-insert store. -/
def create_task (db : DB) (task_data : TaskCreate) (now : Nat) :
    DB × Except ApiError (ApiBody TaskRead) :=
  if truthyId task_data.project_id &&
      (db.getProject (task_data.project_id.getD 0)).isNone then
    (db, .error (.httpError 404 "Project not found"))
  else if truthyId task_data.assignee_id &&
      (db.getUser (task_data.assignee_id.getD 0)).isNone then
    (db, .error (.httpError 404 "User not found"))
  else if truthyId task_data.parent_task_id &&
      (db.getTask (task_data.parent_task_id.getD 0)).isNone then
    (db, .error (.httpError 404 "Parent task not found"))
  else
    let task : Task :=
      { id := db.next_task_id, title := task_data.title,
        description := task_data.description, status := task_data.status,
        priority := task_data.priority,
        is_completed := task_data.is_completed,
        due_date := task_data.due_date,
        estimated_hours := task_data.estimated_hours,
        actual_hours := task_data.actual_hours,
        created_at := now, updated_at := now,
        project_id := task_data.project_id,
        assignee_id := task_data.assignee_id,
        parent_task_id := task_data.parent_task_id }
    let db1 : DB := { db with tasks := db.tasks ++ [task],
                              next_task_id := db.next_task_id + 1 }
    if truthyList task_data.tag_ids then
      let tags := (task_data.tag_ids.getD []).filterMap
        (fun tag_id => db.getTag tag_id)
      match insertLinks db1.links
          (tags.map (fun tg => ⟨task.id, tg.id⟩)) with
      | none => (db1, .error .integrityError)
      | some links2 =>
          ({ db1 with links := links2 },
           .ok (.plain (TaskRead.ofTask task)))
    else
      (db1, .ok (.plain (TaskRead.ofTask task)))

/-- `for field, value in update_data.items(): setattr(task, field, value)`
with `update_data = task_data.model_dump(exclude_unset=True,
exclude={"tag_ids"})`: overwrite exactly the explicitly present fields. -/
def applyTaskUpdate (task : Task) (task_data : TaskUpdate) : Task :=
  { task with
    title := task_data.title.getD task.title,
    description := task_data.description.getD task.description,
    status := task_data.status.getD task.status,
    priority := task_data.priority.getD task.priority,
    is_completed := task_data.is_completed.getD task.is_completed,
    due_date := task_data.due_date.getD task.due_date,
    estimated_hours :=
      task_data.estimated_hours.getD task.estimated_hours,
    actual_hours := task_data.actual_hours.getD task.actual_hours,
    assignee_id := task_data.assignee_id.getD task.assignee_id }

/-- `PUT /tasks/{task_id}`: fetch the task, existence-check a truthy
supplied assignee, overwrite the present fields, replace the tag set
when `tag_ids is not None`, and commit once (so nothing is kept if the
flush fails). -/
def update_task (db : DB) (task_id : Int) (task_data : TaskUpdate) :
    DB × Except ApiError (ApiBody TaskRead) :=
  match db.getTask task_id with
  | none => (db, .error (.httpError 404 "Task not found"))
  | some task =>
    if truthyId task_data.assignee_id.join &&
        (db.getUser (task_data.assignee_id.join.getD 0)).isNone then
      (db, .error (.httpError 404 "User not found"))
    else
      let task2 := applyTaskUpdate task task_data
      let newTasks := db.tasks.map
        (fun t => if t.id == task_id then task2 else t)
      match task_data.tag_ids with
      | some tag_ids =>
          let tags := tag_ids.filterMap (fun tag_id => db.getTag tag_id)
          match bulkReplaceLinks db.links task_id tags with
          | none => (db, .error .integrityError)
          | some links2 =>
              ({ db with tasks := newTasks, links := links2 },
               .ok (.plain (TaskRead.ofTask task2)))
      | none =>
          ({ db with tasks := newTasks },
           .ok (.plain (TaskRead.ofTask task2)))

/-- `DELETE /tasks/{task_id}`: capture the flat projection, then delete
the row (the ORM also deletes the task's association rows in the
many-to-many link table; comments and subtasks keep their dangling
foreign keys). -/
def delete_task (db : DB) (task_id : Int) :
    DB × Except ApiError (ApiBody TaskRead) :=
  match db.getTask task_id with
  | none => (db, .error (.httpError 404 "Task not found"))
  | some task =>
    let task_read := TaskRead.ofTask task
    ({ db with
        tasks := db.tasks.filter (fun t => !(t.id == task_id)),
        links := db.links.filter (fun l => !(l.task_id == task_id)) },
     .ok (.plain task_read))

/-- `GET /tasks/{task_id}/subtasks`: enveloped list of flat projections
of the tasks whose `parent_task_id` equals `task_id`. -/
def get_subtasks (db : DB) (task_id : Int) :
    Except ApiError (ApiBody (List TaskRead)) :=
  match db.getTask task_id with
  | none => .error (.httpError 404 "Task not found")
  | some _ =>
    let subtasks := db.tasks.filter
      (fun t => t.parent_task_id == some task_id)
    .ok (.enveloped { data := some (subtasks.map TaskRead.ofTask) })

/-- `GET /tasks/{task_id}/comments`: enveloped list of the comments
whose `task_id` equals the given id. -/
def get_task_comments (db : DB) (task_id : Int) :
    Except ApiError (ApiBody (List Comment)) :=
  match db.getTask task_id with
  | none => .error (.httpError 404 "Task not found")
  | some _ =>
    let comments := db.comments.filter
      (fun c => c.task_id == some task_id)
    .ok (.enveloped { data := some comments })

/-- Exact round-half-to-even of a rational (Python's `round`). -/
def roundHalfEven (q : ℚ) : ℤ :=
  let f := ⌊q⌋
  let r := q - f
  if r < 1 / 2 then f
  else if r > 1 / 2 then f + 1
  else if 2 ∣ f then f else f + 1

/-- `round(x, 2)` over the rationals. -/
def round2 (q : ℚ) : ℚ := (roundHalfEven (q * 100) : ℚ) / 100

/-- The JSON object returned by `GET /tasks/stats/summary`. -/
structure TaskStatsSummary where
  total_tasks : Nat
  completed_tasks : Nat
  pending_tasks : Nat
  in_progress_tasks : Nat
  completion_rate : ℚ
deriving DecidableEq

/-- `GET /tasks/stats/summary`: counts and the completion rate, returned
as a bare dict (no `ResponseModel` envelope). -/
def get_task_stats (db : DB) : TaskStatsSummary :=
  let total_tasks := db.tasks.length
  let completed_tasks :=
    (db.tasks.filter (fun t => t.is_completed)).length
  let pending_tasks :=
    (db.tasks.filter (fun t => t.status == .pending)).length
  let in_progress_tasks :=
    (db.tasks.filter (fun t => t.status == .in_progress)).length
  { total_tasks := total_tasks, completed_tasks := completed_tasks,
    pending_tasks := pending_tasks,
    in_progress_tasks := in_progress_tasks,
    completion_rate := round2
      (if total_tasks > 0 then
        (completed_tasks : ℚ) / (total_tasks : ℚ) * 100 else 0) }

/-! Small concrete stores used to instantiate the theorems. -/

/-- The empty store. -/
def dbEmpty : DB := {}

/-- A single tag, id 1. -/
def tag1 : Tag := { id := 1, name := "Frontend", created_at := 0 }

/-- A store holding only `tag1`. -/
def dbOneTag : DB := { tags := [tag1] }

/-- A single task, id 1, created (and last updated) at logical time 5. -/
def task1 : Task :=
  { id := 1, title := "Create user authentication",
    status := .in_progress, priority := .high,
    created_at := 5, updated_at := 5 }

/-- A store holding only `task1`. -/
def dbOneTask : DB := { tasks := [task1], next_task_id := 2 }

/-- A store holding `task1` and `tag1`, with no links yet. -/
def dbTagTask : DB :=
  { tags := [tag1], tasks := [task1], next_task_id := 2 }

end TaskApi

namespace TaskApi

/-! Helper lemmas shared by the claim theorems. -/

/-- A successful batch insert appends exactly the batch. -/
theorem insertLinks_eq_append (new : List TaskTagLink) :
    ∀ links links', insertLinks links new = some links' →
      links' = links ++ new := by
  induction new with
  | nil =>
      intro links links' h
      unfold insertLinks at h
      cases h
      simp
  | cons l rest ih =>
      intro links links' h
      unfold insertLinks at h
      split at h
      · exact absurd h (by simp)
      · have h2 := ih (links ++ [l]) links' h
        simpa using h2

/-- A successful batch insert preserves `Nodup` of the link table. -/
theorem insertLinks_nodup (new : List TaskTagLink) :
    ∀ links links', links.Nodup → insertLinks links new = some links' →
      links'.Nodup := by
  induction new with
  | nil =>
      intro links links' hnd h
      unfold insertLinks at h
      cases h
      exact hnd
  | cons l rest ih =>
      intro links links' hnd h
      unfold insertLinks at h
      split at h
      · exact absurd h (by simp)
      · refine ih (links ++ [l]) links' ?_ h
        rename_i hc
        have hl : l ∉ links := by
          intro hmem
          exact hc (List.elem_eq_true_of_mem hmem)
        simpa [List.nodup_append, hnd] using hl

/-- A primary-key tag lookup returns a row whose id is the key. -/
theorem getTag_id (db : DB) (i : Int) (tg : Tag)
    (h : db.getTag i = some tg) : tg.id = i := by
  have h2 := List.find?_some h
  simpa using h2

/-- Resolving a tag-id list and projecting back to ids keeps exactly the
resolvable ids, in order. -/
theorem filterMap_getTag_ids (db : DB) (l : List Int) :
    (l.filterMap db.getTag).map (fun tg => tg.id) =
      l.filter (fun i => (db.getTag i).isSome) := by
  induction l with
  | nil => rfl
  | cons i rest ih =>
      cases h : db.getTag i with
      | none => simp [List.filterMap_cons, List.filter_cons, h, ih]
      | some tg =>
          simp [List.filterMap_cons, List.filter_cons, h, ih,
            getTag_id db i tg h]

/-- After replacing the row found by a primary-key `find?` (keeping its
id), the same lookup finds the replacement. -/
theorem find?_replace_eq (l : List Task) (tid : Int) (t t2 : Task)
    (h : l.find? (fun x => x.id == tid) = some t) (h2 : t2.id = t.id) :
    (l.map (fun x => if x.id == tid then t2 else x)).find?
      (fun x => x.id == tid) = some t2 := by
  induction l with
  | nil => simp at h
  | cons a as ih =>
      by_cases ha : a.id = tid
      · have hat : a = t := by
          have hb : ((fun x : Task => x.id == tid) a) = true := by
            simp [ha]
          rw [List.find?_cons_of_pos (p := fun x : Task => x.id == tid)
            (a := a) as hb] at h
          exact Option.some.inj h
        have hb2 : ((fun x : Task => x.id == tid) t2) = true := by
          simp [h2, ← hat, ha]
        simp only [List.map_cons]
        rw [if_pos (show (a.id == tid) = true by simp [ha])]
        exact List.find?_cons_of_pos (p := fun x : Task => x.id == tid)
          (a := t2) _ hb2
      · have hb : ¬ ((fun x : Task => x.id == tid) a) = true := by
          simp [ha]
        rw [List.find?_cons_of_neg (p := fun x : Task => x.id == tid)
          (a := a) as hb] at h
        simp only [List.map_cons]
        rw [if_neg (show ¬ (a.id == tid) = true by simp [ha])]
        rw [List.find?_cons_of_neg (p := fun x : Task => x.id == tid)
          (a := a) _ hb]
        exact ih h

/-- A lookup by id finds nothing among rows filtered to other ids. -/
theorem find?_filter_ne (l : List Task) (tid : Int) :
    (l.filter (fun t => !(t.id == tid))).find?
      (fun t => t.id == tid) = none := by
  apply List.find?_eq_none.mpr
  intro x hx
  have h2 := (List.mem_filter.mp hx).2
  simp at h2
  simp [h2]

end TaskApi

namespace TaskApi

/-- C8: for every task store, the statistics summary reports counts by
the documented predicates (`completed` by the `is_completed` flag, not
status) and `completion_rate = round(completed/total*100, 2)`, with the
rate exactly `0` when there are no tasks, so the division is guarded. -/
theorem stats_completion_rate_formula (db : DB) :
    (get_task_stats db).total_tasks = db.tasks.length ∧
    (get_task_stats db).completed_tasks =
      (db.tasks.filter (fun t => t.is_completed)).length ∧
    (get_task_stats db).pending_tasks =
      (db.tasks.filter (fun t => t.status == TaskStatus.pending)).length ∧
    (get_task_stats db).in_progress_tasks =
      (db.tasks.filter
        (fun t => t.status == TaskStatus.in_progress)).length ∧
    (get_task_stats db).completion_rate =
      (if db.tasks.length = 0 then 0 else
        round2 (((db.tasks.filter (fun t => t.is_completed)).length : ℚ) /
          (db.tasks.length : ℚ) * 100)) := by
  refine ⟨rfl, rfl, rfl, rfl, ?_⟩
  by_cases h : db.tasks.length = 0
  · simp [get_task_stats, h, round2, roundHalfEven]
  · simp [get_task_stats, h, Nat.pos_of_ne_zero h]

/-- C9: in the task list operation, a supplied filter value of `0` for
`project_id` or `assignee_id` is Python-falsy, so it imposes no
constraint: the listing equals the one with the parameter omitted. -/
theorem list_zero_id_filter_no_constraint (db : DB) (skip limit : Nat)
    (status : Option TaskStatus) (priority : Option TaskPriority)
    (project_id assignee_id : Option Int) :
    get_tasks db skip limit status priority (some 0) assignee_id =
      get_tasks db skip limit status priority none assignee_id ∧
    get_tasks db skip limit status priority project_id (some 0) =
      get_tasks db skip limit status priority project_id none := by
  constructor
  · rfl
  · rfl

/-- C1 evidence: a successful task update leaves `updated_at` at its
creation value (`Task.updated_at` has only a creation-time default and
`update_task` never assigns it — it does not even consult the clock), so
the timestamp does not strictly advance; `created_at` is unchanged. -/
theorem update_leaves_updated_at_unchanged :
    (∃ b, (update_task dbOneTask 1 { title := some "New title" }).2 =
      Except.ok b) ∧
    (update_task dbOneTask 1 { title := some "New title" }).1.tasks.map
      (fun t => (t.created_at, t.updated_at)) = [(5, 5)] :=
  ⟨⟨_, rfl⟩, rfl⟩

/-- C2 counterexample: a successful single-task GET returns the bare
expanded projection, not the `{success, message, data}` envelope. -/
theorem single_get_not_enveloped :
    (∃ d, get_task dbOneTask 1 = Except.ok (ApiBody.plain d)) ∧
    ∀ r, get_task dbOneTask 1 ≠ Except.ok (ApiBody.enveloped r) := by
  constructor
  · exact ⟨_, rfl⟩
  · intro r h
    have h3 : get_task dbOneTask 1 = Except.ok
        (ApiBody.plain (TaskReadWithRelations.ofTask dbOneTask task1)) :=
      rfl
    rw [h3] at h
    exact ApiBody.noConfusion (Except.ok.inj h)

/-- C3 counterexample: a create whose `project_id` is `0` — an id that
refers to no existing project — is not rejected: the check is skipped by
Python truthiness and the task row is persisted with `project_id = 0`. -/
theorem create_zero_project_id_not_rejected :
    dbEmpty.getProject 0 = none ∧
    (∃ b, (create_task dbEmpty { title := "T", project_id := some 0 } 3).2 =
      Except.ok b) ∧
    (create_task dbEmpty
        { title := "T", project_id := some 0 } 3).1.tasks.map
      (fun t => t.project_id) = [some 0] :=
  ⟨rfl, ⟨_, rfl⟩, rfl⟩

/-- C4 counterexample: a create whose `tag_ids` list holds the same
existing tag id twice fails with an `IntegrityError` on the composite
primary key of the link table — not a silent drop — and the task row
(committed first) is left persisted with no tags attached. -/
theorem create_duplicate_tag_ids_integrity_error :
    (create_task dbOneTag { title := "T", tag_ids := some [1, 1] } 0).2 =
      Except.error ApiError.integrityError ∧
    (create_task dbOneTag
        { title := "T", tag_ids := some [1, 1] } 0).1.tasks.map
      (fun t => t.id) = [1] ∧
    (create_task dbOneTag
        { title := "T", tag_ids := some [1, 1] } 0).1.links = [] :=
  ⟨rfl, rfl, rfl⟩

/-- C5 counterexample: an update whose `tag_ids` list repeats a tag that
is not yet attached fires two INSERTs for the same `(task_id, tag_id)`
pair, so the flush fails with an `IntegrityError` instead of being a
no-op, and the task ends up with no tags at all. -/
theorem update_duplicate_tag_ids_integrity_error :
    (update_task dbTagTask 1 { tag_ids := some [1, 1] }).2 =
      Except.error ApiError.integrityError ∧
    (update_task dbTagTask 1 { tag_ids := some [1, 1] }).1.linkTagIds 1 =
      [] :=
  ⟨rfl, rfl⟩

end TaskApi

namespace TaskApi

/-- C7: deleting an existing task returns its pre-deletion flat
projection and a subsequent single-task GET for that id is a 404;
deleting a nonexistent id is itself a 404 and leaves the store
untouched. -/
theorem delete_semantics (db : DB) (tid : Int) :
    (∀ t, db.getTask tid = some t →
      (delete_task db tid).2 =
        Except.ok (ApiBody.plain (TaskRead.ofTask t)) ∧
      get_task (delete_task db tid).1 tid =
        Except.error (ApiError.httpError 404 "Task not found")) ∧
    (db.getTask tid = none →
      delete_task db tid =
        (db, Except.error (ApiError.httpError 404 "Task not found"))) := by
  constructor
  · intro t ht
    have hdel : delete_task db tid =
        ({ db with
            tasks := db.tasks.filter (fun t => !(t.id == tid)),
            links := db.links.filter (fun l => !(l.task_id == tid)) },
          Except.ok (ApiBody.plain (TaskRead.ofTask t))) := by
      unfold delete_task
      rw [ht]
    refine ⟨by rw [hdel], ?_⟩
    rw [hdel]
    simp [get_task, DB.getTask, find?_filter_ne db.tasks tid]
  · intro h
    unfold delete_task
    rw [h]

/-- C7 witness: instantiated at the one-task store (id 1) and at the
empty store. -/
theorem delete_semantics_witness :
    ((delete_task dbOneTask 1).2 =
        Except.ok (ApiBody.plain (TaskRead.ofTask task1)) ∧
      get_task (delete_task dbOneTask 1).1 1 =
        Except.error (ApiError.httpError 404 "Task not found")) ∧
    delete_task dbEmpty 1 =
      (dbEmpty, Except.error (ApiError.httpError 404 "Task not found")) :=
  ⟨(delete_semantics dbOneTask 1).1 task1 rfl,
   (delete_semantics dbEmpty 1).2 rfl⟩

/-- C6: a successful task update writes exactly the fields explicitly
present in the payload; every absent field — including the fields that
cannot appear in a `TaskUpdate` payload at all (`id`, `created_at`,
`updated_at`, `project_id`, `parent_task_id`) — keeps its current
value. -/
theorem update_patch_semantics (db : DB) (tid : Int) (u : TaskUpdate)
    (db' : DB) (b : ApiBody TaskRead) (t t' : Task)
    (h : update_task db tid u = (db', Except.ok b))
    (ht : db.getTask tid = some t) (ht' : db'.getTask tid = some t') :
    (u.title = none → t'.title = t.title) ∧
    (∀ v, u.title = some v → t'.title = v) ∧
    (u.description = none → t'.description = t.description) ∧
    (∀ v, u.description = some v → t'.description = v) ∧
    (u.status = none → t'.status = t.status) ∧
    (∀ v, u.status = some v → t'.status = v) ∧
    (u.priority = none → t'.priority = t.priority) ∧
    (∀ v, u.priority = some v → t'.priority = v) ∧
    (u.is_completed = none → t'.is_completed = t.is_completed) ∧
    (∀ v, u.is_completed = some v → t'.is_completed = v) ∧
    (u.due_date = none → t'.due_date = t.due_date) ∧
    (∀ v, u.due_date = some v → t'.due_date = v) ∧
    (u.estimated_hours = none → t'.estimated_hours = t.estimated_hours) ∧
    (∀ v, u.estimated_hours = some v → t'.estimated_hours = v) ∧
    (u.actual_hours = none → t'.actual_hours = t.actual_hours) ∧
    (∀ v, u.actual_hours = some v → t'.actual_hours = v) ∧
    (u.assignee_id = none → t'.assignee_id = t.assignee_id) ∧
    (∀ v, u.assignee_id = some v → t'.assignee_id = v) ∧
    t'.id = t.id ∧ t'.created_at = t.created_at ∧
    t'.updated_at = t.updated_at ∧ t'.project_id = t.project_id ∧
    t'.parent_task_id = t.parent_task_id := by
  have key : t' = applyTaskUpdate t u := by
    unfold update_task at h
    simp only [ht] at h
    split at h
    · simp at h
    · split at h
      · split at h
        · simp at h
        · injection h with h1 h2
          rw [← h1] at ht'
          have hfind : (db.tasks.map
              (fun x => if x.id == tid then applyTaskUpdate t u else x)).find?
                (fun x => x.id == tid) = some (applyTaskUpdate t u) :=
            find?_replace_eq db.tasks tid t _ ht rfl
          have ht2 : some (applyTaskUpdate t u) = some t' := by
            exact hfind.symm.trans ht'
          exact (Option.some.inj ht2).symm
      · injection h with h1 h2
        rw [← h1] at ht'
        have hfind : (db.tasks.map
            (fun x => if x.id == tid then applyTaskUpdate t u else x)).find?
              (fun x => x.id == tid) = some (applyTaskUpdate t u) :=
          find?_replace_eq db.tasks tid t _ ht rfl
        have ht2 : some (applyTaskUpdate t u) = some t' := by
          exact hfind.symm.trans ht'
        exact (Option.some.inj ht2).symm
  subst key
  refine ⟨?_, ?_, ?_, ?_, ?_, ?_, ?_, ?_, ?_, ?_, ?_, ?_, ?_, ?_, ?_,
    ?_, ?_, ?_, ?_, ?_, ?_, ?_, ?_⟩ <;>
    first
      | (intro v hv; simp [applyTaskUpdate, hv])
      | (intro hv; simp [applyTaskUpdate, hv])
      | simp [applyTaskUpdate]

/-- C6 witness: updating only `status` on the one-task store leaves
`title` untouched. -/
theorem update_patch_semantics_witness :
    ({ task1 with status := TaskStatus.completed } : Task).title =
      task1.title :=
  (update_patch_semantics dbOneTask 1
    { status := some TaskStatus.completed } _ _ task1
    { task1 with status := TaskStatus.completed } rfl rfl rfl).1 rfl

end TaskApi

namespace TaskApi

/-- A successful create always answers with a bare flat projection. -/
theorem create_task_ok_plain (db : DB) (td : TaskCreate) (now : Nat)
    (b : ApiBody TaskRead) (h : (create_task db td now).2 = Except.ok b) :
    ∃ d, b = ApiBody.plain d := by
  unfold create_task at h
  split at h
  · simp at h
  · split at h
    · simp at h
    · split at h
      · simp at h
      · dsimp only at h
        split at h
        · split at h
          · simp at h
          · exact ⟨_, (Except.ok.inj h).symm⟩
        · exact ⟨_, (Except.ok.inj h).symm⟩

/-- A successful update always answers with a bare flat projection. -/
theorem update_task_ok_plain (db : DB) (tid : Int) (u : TaskUpdate)
    (b : ApiBody TaskRead) (h : (update_task db tid u).2 = Except.ok b) :
    ∃ d, b = ApiBody.plain d := by
  unfold update_task at h
  split at h
  · simp at h
  · split at h
    · simp at h
    · dsimp only at h
      split at h
      · split at h
        · simp at h
        · exact ⟨_, (Except.ok.inj h).symm⟩
      · exact ⟨_, (Except.ok.inj h).symm⟩

/-- A successful delete always answers with a bare flat projection. -/
theorem delete_task_ok_plain (db : DB) (tid : Int)
    (b : ApiBody TaskRead) (h : (delete_task db tid).2 = Except.ok b) :
    ∃ d, b = ApiBody.plain d := by
  unfold delete_task at h
  split at h
  · simp at h
  · exact ⟨_, (Except.ok.inj h).symm⟩

/-- C2 amended: only the list, subtasks and comments endpoints wrap
their payload in the `{success: true, message, data}` envelope; the
single get, create, update and delete endpoints return the bare
projection with no envelope. -/
theorem envelope_shape_by_endpoint (db : DB) (skip limit : Nat)
    (status : Option TaskStatus) (priority : Option TaskPriority)
    (project_id assignee_id : Option Int) (tid : Int) :
    (∃ l, get_tasks db skip limit status priority project_id assignee_id =
      ApiBody.enveloped
        { success := true, message := "OK", data := some l }) ∧
    ((db.getTask tid).isSome = true →
      (∃ l, get_subtasks db tid = Except.ok (ApiBody.enveloped
        { success := true, message := "OK", data := some l })) ∧
      (∃ l, get_task_comments db tid = Except.ok (ApiBody.enveloped
        { success := true, message := "OK", data := some l })) ∧
      (∃ d, get_task db tid = Except.ok (ApiBody.plain d))) ∧
    (∀ td now b, (create_task db td now).2 = Except.ok b →
      ∃ d, b = ApiBody.plain d) ∧
    (∀ u b, (update_task db tid u).2 = Except.ok b →
      ∃ d, b = ApiBody.plain d) ∧
    (∀ b, (delete_task db tid).2 = Except.ok b →
      ∃ d, b = ApiBody.plain d) := by
  refine ⟨⟨_, rfl⟩, ?_, ?_, ?_, ?_⟩
  · intro hs
    cases hget : db.getTask tid with
    | none => rw [hget] at hs; simp at hs
    | some t =>
        refine ⟨⟨(db.tasks.filter
            (fun x => x.parent_task_id == some tid)).map TaskRead.ofTask,
            ?_⟩,
          ⟨db.comments.filter (fun c => c.task_id == some tid), ?_⟩,
          ⟨TaskReadWithRelations.ofTask db t, ?_⟩⟩
        · unfold get_subtasks
          rw [hget]
        · unfold get_task_comments
          rw [hget]
        · unfold get_task
          rw [hget]
  · intro td now b h
    exact create_task_ok_plain db td now b h
  · intro u b h
    exact update_task_ok_plain db tid u b h
  · intro b h
    exact delete_task_ok_plain db tid b h

/-- C2 amended witness: the subtasks endpoint of the one-task store
really produces the envelope. -/
theorem envelope_shape_by_endpoint_witness :
    ∃ l, get_subtasks dbOneTask 1 = Except.ok (ApiBody.enveloped
      { success := true, message := "OK", data := some l }) :=
  ((envelope_shape_by_endpoint dbOneTask 0 10 none none none none 1).2.1
    rfl).1

/-- C3 amended: a create whose supplied reference id is nonzero and
resolves to no row fails with the corresponding 404 (`Project not
found`, `User not found`, `Parent task not found`) and leaves the store
— in particular the task table — unchanged. (A supplied id of `0` is
Python-falsy and bypasses the check entirely.) -/
theorem create_missing_reference_404 (db : DB) (td : TaskCreate)
    (now : Nat) (p : Int) :
    (td.project_id = some p → p ≠ 0 → db.getProject p = none →
      create_task db td now =
        (db, Except.error (ApiError.httpError 404 "Project not found"))) ∧
    (truthyId td.project_id = false → td.assignee_id = some p → p ≠ 0 →
      db.getUser p = none →
      create_task db td now =
        (db, Except.error (ApiError.httpError 404 "User not found"))) ∧
    (truthyId td.project_id = false → truthyId td.assignee_id = false →
      td.parent_task_id = some p → p ≠ 0 → db.getTask p = none →
      create_task db td now =
        (db, Except.error
          (ApiError.httpError 404 "Parent task not found"))) := by
  refine ⟨?_, ?_, ?_⟩
  · intro hp hnz hnone
    have h1 : truthyId (some p) = true := by simp [truthyId, hnz]
    simp [create_task, hp, h1, hnone]
  · intro h0 ha hnz hnone
    have h1 : truthyId (some p) = true := by simp [truthyId, hnz]
    simp [create_task, h0, ha, h1, hnone]
  · intro h0 ha hpt hnz hnone
    have h1 : truthyId (some p) = true := by simp [truthyId, hnz]
    simp [create_task, h0, ha, hpt, h1, hnone]

/-- C3 amended witness: each of the three reference checks instantiated
on the empty store with the nonexistent id 5. -/
theorem create_missing_reference_404_witness :
    create_task dbEmpty { title := "T", project_id := some 5 } 0 =
      (dbEmpty,
        Except.error (ApiError.httpError 404 "Project not found")) ∧
    create_task dbEmpty { title := "T", assignee_id := some 5 } 0 =
      (dbEmpty, Except.error (ApiError.httpError 404 "User not found")) ∧
    create_task dbEmpty { title := "T", parent_task_id := some 5 } 0 =
      (dbEmpty,
        Except.error (ApiError.httpError 404 "Parent task not found")) :=
  ⟨(create_missing_reference_404 dbEmpty
      { title := "T", project_id := some 5 } 0 5).1 rfl (by decide) rfl,
   (create_missing_reference_404 dbEmpty
      { title := "T", assignee_id := some 5 } 0 5).2.1 rfl rfl (by decide)
      rfl,
   (create_missing_reference_404 dbEmpty
      { title := "T", parent_task_id := some 5 } 0 5).2.2 rfl rfl rfl
      (by decide) rfl⟩

end TaskApi

namespace TaskApi

/-- C10: a supplied reference id of `0` is Python-falsy, so the
existence checks at create (`project_id`, `assignee_id`,
`parent_task_id`) and at update (`assignee_id`) are skipped: no
not-found error is raised for that reference and the value `0` is
written as the foreign key even though no row has id `0`. -/
theorem zero_id_skips_existence_checks (db : DB) (td : TaskCreate)
    (now : Nat) (tid : Int) (u : TaskUpdate) :
    (td.project_id = some 0 → td.assignee_id = some 0 →
      td.parent_task_id = some 0 → td.tag_ids = some [] →
      ∃ t, create_task db td now =
        ({ db with
            tasks := db.tasks ++ [t],
            next_task_id := db.next_task_id + 1 },
          Except.ok (ApiBody.plain (TaskRead.ofTask t))) ∧
        t.project_id = some 0 ∧ t.assignee_id = some 0 ∧
        t.parent_task_id = some 0) ∧
    (u.assignee_id = some (some 0) →
      (∀ p, update_task db tid u ≠
        (p, Except.error (ApiError.httpError 404 "User not found"))) ∧
      (u.tag_ids = none → ∀ t, db.getTask tid = some t →
        ∃ t', (update_task db tid u).2 =
            Except.ok (ApiBody.plain (TaskRead.ofTask t')) ∧
          (update_task db tid u).1.getTask tid = some t' ∧
          t'.assignee_id = some 0)) := by
  constructor
  · intro hp ha hpt htags
    refine ⟨{
        id := db.next_task_id, title := td.title,
        description := td.description, status := td.status,
        priority := td.priority, is_completed := td.is_completed,
        due_date := td.due_date, estimated_hours := td.estimated_hours,
        actual_hours := td.actual_hours, created_at := now,
        updated_at := now, project_id := some 0, assignee_id := some 0,
        parent_task_id := some 0 }, ?_, rfl, rfl, rfl⟩
    unfold create_task
    rw [hp, ha, hpt, htags]
    rfl
  · intro hu
    constructor
    · intro p hcontra
      unfold update_task at hcontra
      cases hget : db.getTask tid with
      | none =>
          simp only [hget] at hcontra
          injection hcontra with h1 h2
          injection h2 with h3
          injection h3 with h4 h5
          exact absurd h5 (by decide)
      | some t =>
          simp only [hget, hu] at hcontra
          rw [show truthyId (Option.join (some (some (0 : Int)))) = false
            from rfl] at hcontra
          simp only [Bool.false_and, Bool.false_eq_true,
            if_false] at hcontra
          split at hcontra
          · split at hcontra
            · injection hcontra with h1 h2
              injection h2 with h3
              exact ApiError.noConfusion h3
            · injection hcontra with h1 h2
              exact Except.noConfusion h2
          · injection hcontra with h1 h2
            exact Except.noConfusion h2
    · intro htags0 t hget
      refine ⟨applyTaskUpdate t u, ?_, ?_, ?_⟩
      · unfold update_task
        rw [hget, hu, htags0]
        rfl
      · unfold update_task
        rw [hget, hu, htags0]
        exact find?_replace_eq db.tasks tid t _ hget rfl
      · simp [applyTaskUpdate, hu]

/-- C10 witness: a create with all three reference ids `0` on the empty
store succeeds and stores the zeros; an update with `assignee_id = 0` on
the one-task store succeeds and stores `0`. -/
theorem zero_id_skips_existence_checks_witness :
    (∃ t, create_task dbEmpty
        { title := "T", project_id := some 0, assignee_id := some 0,
          parent_task_id := some 0, tag_ids := some [] } 7 =
        ({ dbEmpty with
            tasks := dbEmpty.tasks ++ [t],
            next_task_id := dbEmpty.next_task_id + 1 },
          Except.ok (ApiBody.plain (TaskRead.ofTask t))) ∧
        t.project_id = some 0 ∧ t.assignee_id = some 0 ∧
        t.parent_task_id = some 0) ∧
    (∃ t', (update_task dbOneTask 1
          { assignee_id := some (some 0) }).2 =
        Except.ok (ApiBody.plain (TaskRead.ofTask t')) ∧
      (update_task dbOneTask 1
          { assignee_id := some (some 0) }).1.getTask 1 = some t' ∧
      t'.assignee_id = some 0) :=
  ⟨(zero_id_skips_existence_checks dbEmpty
      { title := "T", project_id := some 0, assignee_id := some 0,
        parent_task_id := some 0, tag_ids := some [] } 7 1
      { assignee_id := some (some 0) }).1 rfl rfl rfl rfl,
   ((zero_id_skips_existence_checks dbOneTask
      { title := "T" } 0 1
      { assignee_id := some (some 0) }).2 rfl).2 rfl task1 rfl⟩

end TaskApi

namespace TaskApi

/-- An id is among the resolved tag ids iff it was supplied and
resolves. -/
theorem mem_resolved_ids (db : DB) (l : List Int) (i : Int) :
    (i ∈ (l.filterMap db.getTag).map (fun tg => tg.id)) ↔
      (i ∈ l ∧ (db.getTag i).isSome = true) := by
  rw [filterMap_getTag_ids]
  simp [List.mem_filter]

/-- C4 amended: for a duplicate-free view of the outcome — on success,
a create with a supplied tag-id list attaches exactly the pairs for the
resolvable ids (unresolvable ids silently dropped); a successful update
with a supplied list makes the task's stored tag set exactly the
resolvable ids of the list (so `[]` clears it); omitting `tag_ids` on
update leaves the link table untouched. (A list that repeats a
not-yet-linked tag makes the flush fail with `IntegrityError` instead —
see the counterexample — so the success hypothesis is required.) -/
theorem tag_ids_resolution_semantics (db : DB) (td : TaskCreate)
    (now : Nat) (tid : Int) (u : TaskUpdate) (l : List Int) :
    (td.tag_ids = some l →
      ∀ b, (create_task db td now).2 = Except.ok b →
        (create_task db td now).1.links =
          db.links ++ (l.filter (fun i => (db.getTag i).isSome)).map
            (fun i => ⟨db.next_task_id, i⟩)) ∧
    (u.tag_ids = some l →
      ∀ b, (update_task db tid u).2 = Except.ok b →
        ∀ i, (i ∈ (update_task db tid u).1.linkTagIds tid ↔
          (i ∈ l ∧ (db.getTag i).isSome = true))) ∧
    (u.tag_ids = none →
      (update_task db tid u).1.links = db.links) := by
  refine ⟨?_, ?_, ?_⟩
  · intro hl b hok
    unfold create_task at hok ⊢
    split at hok
    · simp at hok
    · rename_i h1
      rw [if_neg h1]
      split at hok
      · simp at hok
      · rename_i h2
        rw [if_neg h2]
        split at hok
        · simp at hok
        · rename_i h3
          rw [if_neg h3]
          dsimp only at hok ⊢
          rw [hl] at hok ⊢
          simp only [Option.getD_some] at hok ⊢
          by_cases hemp : l = []
          · have htl : ¬ (truthyList (some l) = true) := by
              simp [truthyList, hemp]
            rw [if_neg htl]
            simp [hemp]
          · have htl : truthyList (some l) = true := by
              simp [truthyList, hemp]
            rw [if_pos htl] at hok ⊢
            split at hok
            · simp at hok
            · rename_i links2 hins
              dsimp only
              rw [insertLinks_eq_append _ _ _ hins]
              rw [← filterMap_getTag_ids]
              simp [List.map_map]
  · intro hl b hok i
    unfold update_task at hok ⊢
    cases hget : db.getTask tid with
    | none =>
        simp only [hget] at hok
        simp at hok
    | some t =>
        simp only [hget] at hok ⊢
        split at hok
        · simp at hok
        · rename_i hass
          rw [if_neg hass]
          simp only [hl] at hok ⊢
          split at hok
          · simp at hok
          · rename_i links2 hins
            unfold DB.linkTagIds
            dsimp only
            unfold bulkReplaceLinks at hins
            dsimp only at hins
            have hl2 := insertLinks_eq_append _ _ _ hins
            rw [hl2, ← mem_resolved_ids db l i]
            constructor
            · intro hmem
              rcases List.mem_map.mp hmem with ⟨lk, hlk, hlkid⟩
              rcases List.mem_filter.mp hlk with ⟨hlk2, hlktid⟩
              rcases List.mem_append.mp hlk2 with hk | hk2
              · rcases List.mem_filter.mp hk with ⟨hdb, hpred⟩
                rw [hlktid] at hpred
                simp only [Bool.not_true, Bool.false_or] at hpred
                rw [← hlkid]
                simpa [List.contains, List.elem_iff] using hpred
              · rcases List.mem_map.mp hk2 with ⟨tg, htg, htgeq⟩
                rcases List.mem_filter.mp htg with ⟨htags, hnew⟩
                rw [← hlkid, ← htgeq]
                exact List.mem_map.mpr ⟨tg, htags, rfl⟩
            · intro hmem
              rcases List.mem_map.mp hmem with ⟨tg, htg, htgid⟩
              by_cases hold : i ∈ (db.links.filter
                  (fun lk => lk.task_id == tid)).map (fun lk => lk.tag_id)
              · rcases List.mem_map.mp hold with ⟨lk, hlk, hlkid⟩
                rcases List.mem_filter.mp hlk with ⟨hdb, htid2⟩
                refine List.mem_map.mpr ⟨lk, ?_, hlkid⟩
                refine List.mem_filter.mpr ⟨?_, htid2⟩
                refine List.mem_append.mpr (Or.inl ?_)
                refine List.mem_filter.mpr ⟨hdb, ?_⟩
                rw [htid2]
                simp only [Bool.not_true, Bool.false_or]
                rw [hlkid]
                rw [← htgid] at hmem ⊢
                simp only [List.contains, List.elem_iff]
                exact List.mem_map.mpr ⟨tg, htg, rfl⟩
              · refine List.mem_map.mpr ⟨⟨tid, tg.id⟩, ?_, htgid⟩
                refine List.mem_filter.mpr ⟨?_, by simp⟩
                refine List.mem_append.mpr (Or.inr ?_)
                refine List.mem_map.mpr ⟨tg, ?_, rfl⟩
                refine List.mem_filter.mpr ⟨htg, ?_⟩
                rw [htgid]
                simpa [List.contains] using hold
  · intro hl0
    unfold update_task
    cases hget : db.getTask tid with
    | none =>
        simp only [hget]
    | some t =>
        simp only [hget, hl0]
        split
        · rfl
        · rfl

end TaskApi

namespace TaskApi

/-- A store holding `task1` and `tag1` with the pair already linked. -/
def dbLinked : DB :=
  { tags := [tag1], tasks := [task1], links := [⟨1, 1⟩],
    next_task_id := 2 }

/-- C4 amended witness: create attaching `[1, 999]` (only tag 1 exists)
attaches exactly the pair for tag 1; an update supplying `[1, 999]`
yields membership exactly for the resolvable supplied ids; an update
without `tag_ids` leaves the link table untouched. -/
theorem tag_ids_resolution_semantics_witness :
    (create_task dbOneTag
        { title := "T", tag_ids := some [1, 999] } 0).1.links =
      dbOneTag.links ++ ([1, 999].filter
        (fun i => (dbOneTag.getTag i).isSome)).map
        (fun i => ⟨dbOneTag.next_task_id, i⟩) ∧
    ((1 : Int) ∈ (update_task dbTagTask 1
        { tag_ids := some [1, 999] }).1.linkTagIds 1 ↔
      ((1 : Int) ∈ [(1 : Int), 999] ∧
        (dbTagTask.getTag 1).isSome = true)) ∧
    (update_task dbOneTask 1
        { status := some TaskStatus.completed }).1.links =
      dbOneTask.links :=
  ⟨(tag_ids_resolution_semantics dbOneTag
      { title := "T", tag_ids := some [1, 999] } 0 1 {} [1, 999]).1
      rfl _ rfl,
   (tag_ids_resolution_semantics dbTagTask { title := "T" } 0 1
      { tag_ids := some [1, 999] } [1, 999]).2.1 rfl _ rfl 1,
   (tag_ids_resolution_semantics dbOneTask { title := "T" } 0 1
      { status := some TaskStatus.completed } []).2.2 rfl⟩

/-- C5 amended: the stored Task–Tag association behaves as a set of
pairs — every operation preserves duplicate-freeness of the link table,
each task's stored tag list therefore holds a tag at most once, and an
update whose resolvable tag ids coincide with the task's current tag
set is a no-op on the link table. (Re-adding within a single payload is
not a silent duplicate either: it is rejected by the composite primary
key — see the counterexample.) -/
theorem tag_link_pairs_form_a_set (db : DB) (td : TaskCreate)
    (now : Nat) (tid tid2 tid3 : Int) (u u2 : TaskUpdate) (l : List Int) :
    (db.links.Nodup →
      ((create_task db td now).1.links.Nodup ∧
       (update_task db tid u).1.links.Nodup ∧
       (delete_task db tid2).1.links.Nodup)) ∧
    (db.links.Nodup → (db.linkTagIds tid3).Nodup) ∧
    (u2.tag_ids = some l →
      (∀ i, (i ∈ (l.filterMap db.getTag).map (fun tg => tg.id)) ↔
        i ∈ db.linkTagIds tid) →
      (update_task db tid u2).1.links = db.links) := by
  refine ⟨?_, ?_, ?_⟩
  · intro hnd
    refine ⟨?_, ?_, ?_⟩
    · unfold create_task
      split
      · exact hnd
      · split
        · exact hnd
        · split
          · exact hnd
          · dsimp only
            split
            · split
              · exact hnd
              · rename_i links2 hins
                exact insertLinks_nodup _ _ _ hnd hins
            · exact hnd
    · unfold update_task
      split
      · exact hnd
      · split
        · exact hnd
        · dsimp only
          split
          · split
            · exact hnd
            · rename_i links2 hins
              unfold bulkReplaceLinks at hins
              dsimp only at hins
              exact insertLinks_nodup _ _ _ (hnd.filter _) hins
          · exact hnd
    · unfold delete_task
      split
      · exact hnd
      · exact hnd.filter _
  · intro hnd
    unfold DB.linkTagIds
    apply List.Nodup.map_on
    · intro x hx y hy hxy
      have hx2 := (List.mem_filter.mp hx).2
      have hy2 := (List.mem_filter.mp hy).2
      simp at hx2 hy2
      cases x
      cases y
      simp_all
    · exact hnd.filter _
  · intro hl hsame
    unfold update_task
    cases hget : db.getTask tid with
    | none => simp only [hget]
    | some t =>
        simp only [hget, hl]
        split
        · rfl
        · have hrep : bulkReplaceLinks db.links tid
              (l.filterMap (fun tag_id => db.getTag tag_id)) =
              some db.links := by
            unfold bulkReplaceLinks
            dsimp only
            have hkept : db.links.filter
                (fun lk => (!(lk.task_id == tid) ||
                  ((l.filterMap (fun tag_id => db.getTag tag_id)).map
                    (fun tg => tg.id)).contains lk.tag_id)) = db.links := by
              apply List.filter_eq_self.mpr
              intro lk hlk
              by_cases ht : lk.task_id = tid
              · have hmem : lk.tag_id ∈ db.linkTagIds tid := by
                  unfold DB.linkTagIds
                  exact List.mem_map.mpr ⟨lk, List.mem_filter.mpr
                    ⟨hlk, by simp [ht]⟩, rfl⟩
                have h2 := (hsame lk.tag_id).mpr hmem
                simpa [ht, List.contains] using h2
              · simp [ht]
            have hadd : (l.filterMap
                (fun tag_id => db.getTag tag_id)).filter
                (fun tg => !((db.links.filter
                  (fun lk => lk.task_id == tid)).map
                    (fun lk => lk.tag_id)).contains tg.id) = [] := by
              apply List.filter_eq_nil_iff.mpr
              intro tg htg
              have hmem2 := (hsame tg.id).mp
                (List.mem_map.mpr ⟨tg, htg, rfl⟩)
              unfold DB.linkTagIds at hmem2
              have hmem3 : ∃ a, (a ∈ db.links ∧ a.task_id = tid) ∧
                  a.tag_id = tg.id := by simpa using hmem2
              obtain ⟨a, ⟨ha1, ha2⟩, ha3⟩ := hmem3
              simp [List.contains]
              exact ⟨a, ha1, ha2, ha3⟩
            rw [hkept, hadd]
            rfl
          rw [hrep]

/-- C5 amended witness: instantiated on small concrete stores — the
link table stays duplicate-free after a create, a task's tag list is
duplicate-free, and re-supplying exactly the already-attached tag id is
a no-op on the link table. -/
theorem tag_link_pairs_form_a_set_witness :
    (create_task dbTagTask
      { title := "T", tag_ids := some [1] } 0).1.links.Nodup ∧
    (dbLinked.linkTagIds 1).Nodup ∧
    (update_task dbLinked 1 { tag_ids := some [1] }).1.links =
      dbLinked.links := by
  refine ⟨((tag_link_pairs_form_a_set dbTagTask
      { title := "T", tag_ids := some [1] } 0 1 1 1 {} {} []).1
      (by decide)).1,
    (tag_link_pairs_form_a_set dbLinked { title := "T" } 0 1 1 1 {} {}
      []).2.1 (by decide),
    (tag_link_pairs_form_a_set dbLinked { title := "T" } 0 1 1 1 {}
      { tag_ids := some [1] } [1]).2.2 rfl ?_⟩
  intro i
  rw [show ((([1] : List Int).filterMap dbLinked.getTag).map
    (fun tg => tg.id)) = ([1] : List Int) from rfl]
  rw [show dbLinked.linkTagIds 1 = ([1] : List Int) from rfl]

end TaskApi
